import Mathlib

/-!
# BorrowBook: verification of the library-management service layer

Shallow embedding of the BorrowBook repository's service layer
(`service/user.go`, `service/book_borrows.go` (also the book half of the
service package), `database/database.go`) over a relational store.

The store is the PostgreSQL database created by
`CreateTablesIfNotExist` (database/database.go):

* `users(id SERIAL PRIMARY KEY, first_name, last_name)`
* `books(id SERIAL PRIMARY KEY, title, quantity INT NOT NULL CHECK (quantity >= 0))`
* `book_borrows(id SERIAL PRIMARY KEY, user_id REFERENCES users, book_id REFERENCES books,
   borrow_date TIMESTAMPTZ DEFAULT CURRENT_TIMESTAMP, return_date TIMESTAMPTZ,
   CONSTRAINT unique_borrow UNIQUE(user_id, book_id, return_date))`

Timestamps are modelled as natural numbers; `Store.clock` is the value
`NOW()` / `CURRENT_TIMESTAMP` yields for the statements of the current
service call.  PostgreSQL semantics modelled where the code depends on it:

* `CHECK (quantity >= 0)` aborts any `INSERT`/`UPDATE` on `books` that
  would leave an affected row negative, leaving the store unchanged;
* the `unique_borrow` constraint treats two NULL `return_date`s as
  distinct (standard SQL `UNIQUE` semantics), so it never blocks the
  insert done by `BorrowBook` (whose `return_date` is NULL), but it does
  abort an `UPDATE` that makes two rows agree on a non-null triple;
* `REFERENCES` forbids inserting a borrow row for an absent user/book and
  deleting a user/book still referenced by some borrow row;
* `QueryRow(..).Scan(dst...)` yields `pgx.ErrNoRows` when no row matches,
  and fails with "number of field descriptions must equal number of
  destinations" when a row matches but the column count differs from the
  number of scan destinations (pgx v4 `connRow.Scan` / `connRows.Scan`).
-/

namespace BorrowBook

/-- A row of the `users` table (`models/user.User`). -/
structure UserRow where
  id : Nat
  first_name : String
  last_name : String
deriving DecidableEq, Repr

/-- A row of the `books` table (`models/book.Book`); `quantity` is a Go `int`,
so it is modelled as `Int` (the CHECK constraint, not the type, keeps it
nonnegative in the store). -/
structure BookRow where
  id : Nat
  title : String
  quantity : Int
deriving DecidableEq, Repr

/-- A row of the `book_borrows` table (`models/book_borrow.BookBorrow`).
Both timestamp columns are nullable in the DDL; `borrow_date` has
`DEFAULT CURRENT_TIMESTAMP`. -/
structure BorrowRow where
  id : Nat
  user_id : Nat
  book_id : Nat
  borrow_date : Option Nat
  return_date : Option Nat
deriving DecidableEq, Repr

/-- The relational store: the three tables, the next value of each `SERIAL`
sequence, and the current time. -/
structure Store where
  users : List UserRow
  books : List BookRow
  borrows : List BorrowRow
  nextUserId : Nat
  nextBookId : Nat
  nextBorrowId : Nat
  clock : Nat
deriving DecidableEq, Repr

/-- Errors surfaced by a service call (`errors.AppError`): `business` is
`er.New(funcName, message, nil)` — a typed business-rule message with no
underlying cause; `db` is an operational error coming from the driver or
the database engine, wrapped with `er.Wrap`. -/
inductive AppErr where
  | business (msg : String)
  | db (msg : String)
deriving DecidableEq, Repr

/-- Outcome of a service call: the new store on success, or the error
together with the store as it stands when the call bails out (the Go code
returns only the error; the database keeps whatever statements already
ran, since nothing is wrapped in a transaction). -/
abbrev SvcResult := Except (AppErr × Store) Store

/-! ## User service (`service/user.go`) -/

/-- `SELECT EXISTS (SELECT 1 FROM users WHERE id = $1)`. -/
def userExistsQ (s : Store) (userId : Nat) : Bool :=
  s.users.any (fun r => r.id == userId)

/-- `UserExist` (user.go:172): `nil` when the user exists, otherwise the
typed message. -/
def userExist (s : Store) (userId : Nat) : Option AppErr :=
  if userExistsQ s userId then none
  else some (.business ("User with id " ++ toString userId ++ " does not exist"))

/-- `SELECT EXISTS (SELECT 1 FROM users WHERE first_name = $1 AND last_name = $2)`. -/
def namePairExistsQ (s : Store) (fn ln : String) : Bool :=
  s.users.any (fun r => r.first_name == fn && r.last_name == ln)

/-- `nameAndLastNameExist` (user.go:196): fails when any user already has
this first+last name pair. -/
def nameAndLastNameExist (s : Store) (fn ln : String) : Option AppErr :=
  if namePairExistsQ s fn ln then
    some (.business ("User with this name: " ++ fn ++ ", and last name: " ++ ln ++
      ", already exists"))
  else none

/-- `INSERT INTO users (first_name, last_name) VALUES ($1, $2)`; `id` is
assigned by the `SERIAL` sequence. -/
def execInsertUser (s : Store) (fn ln : String) : Store :=
  { s with users := s.users ++ [⟨s.nextUserId, fn, ln⟩],
           nextUserId := s.nextUserId + 1 }

/-- `CreateUser` (user.go:37). -/
def createUser (s : Store) (fn ln : String) : SvcResult :=
  match nameAndLastNameExist s fn ln with
  | some e => .error (e, s)
  | none => .ok (execInsertUser s fn ln)

/-- `UpdateUser` (user.go:116): existence check on the id, then the
name-pair duplicate check (against the whole table, the target row
included), then
`UPDATE users SET first_name = $1, last_name = $2 WHERE id = $3`. -/
def updateUser (s : Store) (fn ln : String) (userId : Nat) : SvcResult :=
  match userExist s userId with
  | some e => .error (e, s)
  | none =>
    match nameAndLastNameExist s fn ln with
    | some e => .error (e, s)
    | none =>
      .ok { s with users := s.users.map (fun r =>
        if r.id == userId then { r with first_name := fn, last_name := ln } else r) }

/-- `DELETE FROM users WHERE id = $1`: the `book_borrows.user_id`
foreign key aborts the statement when a borrow row still references the
user being deleted. -/
def execDeleteUser (s : Store) (userId : Nat) : SvcResult :=
  if s.users.any (fun r => r.id == userId) &&
     s.borrows.any (fun r => r.user_id == userId) then
    .error (.db "update or delete on table users violates foreign key constraint on book_borrows", s)
  else
    .ok { s with users := s.users.filter (fun r => !(r.id == userId)) }

/-- `DeleteUser` (user.go:146). -/
def deleteUser (s : Store) (userId : Nat) : SvcResult :=
  match userExist s userId with
  | some e => .error (e, s)
  | none => execDeleteUser s userId

/-! ## Book service (book half of `service/user.go`'s package) -/

/-- `SELECT EXISTS (SELECT 1 FROM books WHERE title = $1)`. -/
def titleExistsQ (s : Store) (title : String) : Bool :=
  s.books.any (fun r => r.title == title)

/-- `titleExists`: fails when any book already carries this title. -/
def titleExists (s : Store) (title : String) : Option AppErr :=
  if titleExistsQ s title then
    some (.business ("Book with title " ++ title ++ ", already exists"))
  else none

/-- `SELECT EXISTS(SELECT 1 FROM books WHERE id = $1)` wrapped by
`bookExists`. -/
def bookExists (s : Store) (bookId : Nat) : Option AppErr :=
  if s.books.any (fun r => r.id == bookId) then none
  else some (.business ("Book with id " ++ toString bookId ++ " does not exist"))

/-- `SELECT EXISTS (SELECT 1 FROM books WHERE id = $1 AND title = $2)`
(`bookAndTitleMatch`). -/
def bookAndTitleMatchQ (s : Store) (bookId : Nat) (title : String) : Bool :=
  s.books.any (fun r => r.id == bookId && r.title == title)

/-- `INSERT INTO books (title, quantity) VALUES ($1, $2)`: the
`CHECK (quantity >= 0)` constraint aborts the insert of a negative
quantity. -/
def execInsertBook (s : Store) (title : String) (q : Int) : SvcResult :=
  if q < 0 then
    .error (.db "new row for relation books violates check constraint", s)
  else
    .ok { s with books := s.books ++ [⟨s.nextBookId, title, q⟩],
                 nextBookId := s.nextBookId + 1 }

/-- `CreateBook`. -/
def createBook (s : Store) (title : String) (q : Int) : SvcResult :=
  match titleExists s title with
  | some e => .error (e, s)
  | none => execInsertBook s title q

/-- `UPDATE books SET title = $1, quantity = $2 WHERE id = $3`: aborted by
the check constraint when a row is actually affected and the new quantity
is negative. -/
def execUpdateBook (s : Store) (bookId : Nat) (title : String) (q : Int) : SvcResult :=
  if q < 0 && s.books.any (fun r => r.id == bookId) then
    .error (.db "new row for relation books violates check constraint", s)
  else
    .ok { s with books := s.books.map (fun r =>
      if r.id == bookId then { r with title := title, quantity := q } else r) }

/-- `UpdateBook`: existence check; when id and title already match the
stored row the duplicate-title check is skipped, otherwise the new title
must be absent from the whole table. -/
def updateBook (s : Store) (bookId : Nat) (title : String) (q : Int) : SvcResult :=
  match bookExists s bookId with
  | some e => .error (e, s)
  | none =>
    if bookAndTitleMatchQ s bookId title then
      execUpdateBook s bookId title q
    else
      match titleExists s title with
      | some e => .error (e, s)
      | none => execUpdateBook s bookId title q

/-- `DELETE FROM books WHERE id = $1` (no existence pre-check in
`DeleteBook`): the `book_borrows.book_id` foreign key aborts the delete of
a still-referenced book. -/
def execDeleteBook (s : Store) (bookId : Nat) : SvcResult :=
  if s.books.any (fun r => r.id == bookId) &&
     s.borrows.any (fun r => r.book_id == bookId) then
    .error (.db "update or delete on table books violates foreign key constraint on book_borrows", s)
  else
    .ok { s with books := s.books.filter (fun r => !(r.id == bookId)) }

/-- `DeleteBook`. -/
def deleteBook (s : Store) (bookId : Nat) : SvcResult :=
  execDeleteBook s bookId

/-! ## Borrow service (`service/book_borrows.go`) -/

/-- `SELECT quantity FROM books WHERE id = $1` read through `QueryRow`:
the first matching row, or `pgx.ErrNoRows`. -/
def readBookQuantity (s : Store) (bookId : Nat) : Option Int :=
  (s.books.find? (fun r => r.id == bookId)).map (fun r => r.quantity)

/-- Rows matched by `SELECT * FROM book_borrows WHERE book_id = $1 AND
user_id = $2 AND borrow_date IS NOT NULL AND return_date IS NULL` — the
existence check shared (same WHERE clause) by `BorrowBook` (line 133) and
`ReturnBook` (line 183, there with `SELECT 1`). -/
def activeBorrowCheckRows (s : Store) (bookId userId : Nat) : List BorrowRow :=
  s.borrows.filter (fun r =>
    r.book_id == bookId && r.user_id == userId &&
    !(r.borrow_date == none) && r.return_date == none)

/-- The borrowed-check of `BorrowBook` (book_borrows.go:132-145):
`QueryRow` over the five-column `SELECT *` scanned into the single
destination `&bookBorrowed`.  With no matching row, `Scan` yields
`pgx.ErrNoRows` and the code sets `bookBorrowed = false`; with a matching
row, pgx's `Scan` fails because five field descriptions do not match one
destination, and that error is wrapped and returned — so the scan never
produces `true`. -/
def scanBorrowedFlag (s : Store) (bookId userId : Nat) : Except AppErr Bool :=
  match (activeBorrowCheckRows s bookId userId).head? with
  | some _ => .error (.db "number of field descriptions must equal number of destinations, got 5 and 1")
  | none => .ok false

/-- `INSERT INTO book_borrows (book_id, user_id) VALUES ($1, $2)`:
`borrow_date` takes its `CURRENT_TIMESTAMP` default, `return_date` is
NULL.  The two foreign keys must resolve; `unique_borrow` never fires here
because the fresh row's `return_date` is NULL and SQL `UNIQUE` treats
NULLs as distinct. -/
def execInsertBorrow (s : Store) (bookId userId : Nat) : SvcResult :=
  if !(s.users.any (fun r => r.id == userId)) then
    .error (.db "insert on table book_borrows violates foreign key constraint on users", s)
  else if !(s.books.any (fun r => r.id == bookId)) then
    .error (.db "insert on table book_borrows violates foreign key constraint on books", s)
  else
    .ok { s with borrows := s.borrows ++ [⟨s.nextBorrowId, userId, bookId, some s.clock, none⟩],
                 nextBorrowId := s.nextBorrowId + 1 }

/-- `UPDATE books SET quantity = quantity - 1 WHERE id = $1` under the
check constraint. -/
def execDecrementBook (s : Store) (bookId : Nat) : SvcResult :=
  if s.books.any (fun r => r.id == bookId && r.quantity - 1 < 0) then
    .error (.db "new row for relation books violates check constraint", s)
  else
    .ok { s with books := s.books.map (fun r =>
      if r.id == bookId then { r with quantity := r.quantity - 1 } else r) }

/-- `BorrowBook` (book_borrows.go:105-173). -/
def borrowBook (s : Store) (bookId userId : Nat) : SvcResult :=
  match readBookQuantity s bookId with
  | none => .error (.db "no rows in result set", s)
  | some quantity =>
    if quantity ≤ 0 then .error (.business "Book is not available", s)
    else
      match userExist s userId with
      | some e => .error (e, s)
      | none =>
        match scanBorrowedFlag s bookId userId with
        | .error e => .error (e, s)
        | .ok bookBorrowed =>
          if bookBorrowed then .error (.business "Book is already borrowed", s)
          else
            match execInsertBorrow s bookId userId with
            | .error e => .error e
            | .ok s1 =>
              match execDecrementBook s1 bookId with
              | .error e => .error e
              | .ok s2 => .ok s2

/-- `UPDATE book_borrows SET return_date = NOW() WHERE book_id = $1 AND
user_id = $2 AND return_date IS NULL` — note: no `borrow_date` condition
and no row limit, so it touches every active row of the pair. -/
def markReturnedRows (s : Store) (bookId userId : Nat) : List BorrowRow :=
  s.borrows.map (fun r =>
    if r.book_id == bookId && r.user_id == userId && r.return_date == none
    then { r with return_date := some s.clock } else r)

/-- The return-marking update under the `unique_borrow` constraint: every
affected row ends at the triple `(userId, bookId, NOW())`, so the
statement aborts when it affects two or more rows, or when one affected
row collides with an existing row already carrying exactly this non-null
triple. -/
def execMarkReturned (s : Store) (bookId userId : Nat) : SvcResult :=
  let affected := s.borrows.filter (fun r =>
    r.book_id == bookId && r.user_id == userId && r.return_date == none)
  if 2 ≤ affected.length ∨
     (1 ≤ affected.length ∧
       s.borrows.any (fun r =>
         r.book_id == bookId && r.user_id == userId && r.return_date == some s.clock) = true) then
    .error (.db "duplicate key value violates unique constraint unique_borrow", s)
  else
    .ok { s with borrows := markReturnedRows s bookId userId }

/-- `UPDATE books SET quantity = quantity + 1 WHERE id = $1` under the
check constraint. -/
def execIncrementBook (s : Store) (bookId : Nat) : SvcResult :=
  if s.books.any (fun r => r.id == bookId && r.quantity + 1 < 0) then
    .error (.db "new row for relation books violates check constraint", s)
  else
    .ok { s with books := s.books.map (fun r =>
      if r.id == bookId then { r with quantity := r.quantity + 1 } else r) }

/-- `ReturnBook` (book_borrows.go:176-224).  The `SELECT 1` existence
check scans one column into one destination, so here `pgx.ErrNoRows` is
the only failure on an empty result, mapped to the "Book is not borrowed"
business error; on a match `activeBorrowCount` is 1, so the
`activeBorrowCount == 0` branch ("Book is not currently borrowed by the
user") is unreachable and is kept here verbatim. -/
def returnBook (s : Store) (bookId userId : Nat) : SvcResult :=
  match (activeBorrowCheckRows s bookId userId).head? with
  | none => .error (.business "Book is not borrowed", s)
  | some _ =>
    let activeBorrowCount : Int := 1
    if activeBorrowCount = 0 then
      .error (.business "Book is not currently borrowed by the user", s)
    else
      match execMarkReturned s bookId userId with
      | .error e => .error e
      | .ok s1 =>
        match execIncrementBook s1 bookId with
        | .error e => .error e
        | .ok s2 => .ok s2

/-! ## Sequential execution of service operations

The claims about invariants quantify over sequences of sequentially
executed service operations starting from the freshly created empty
tables.  Read-only operations (`GetUser`, `GetAllUsers`, `GetBook`,
`GetAllBooks`, `GetAvailableBooks`, `AllBorrowedBooks`) run no writing
statement, so a single constructor stands for all of them. -/

/-- One service operation. -/
inductive Op where
  | createUser (fn ln : String)
  | updateUser (fn ln : String) (userId : Nat)
  | deleteUser (userId : Nat)
  | createBook (title : String) (q : Int)
  | updateBook (bookId : Nat) (title : String) (q : Int)
  | deleteBook (bookId : Nat)
  | borrowBook (bookId userId : Nat)
  | returnBook (bookId userId : Nat)
  | readOnly
deriving DecidableEq, Repr

/-- Dispatch one operation against the store. -/
def applyOp (s : Store) (o : Op) : SvcResult :=
  match o with
  | .createUser fn ln => createUser s fn ln
  | .updateUser fn ln uid => updateUser s fn ln uid
  | .deleteUser uid => deleteUser s uid
  | .createBook t q => createBook s t q
  | .updateBook bid t q => updateBook s bid t q
  | .deleteBook bid => deleteBook s bid
  | .borrowBook bid uid => borrowBook s bid uid
  | .returnBook bid uid => returnBook s bid uid
  | .readOnly => .ok s

/-- The store after a call: its success state, or — the statements not
being wrapped in a transaction — whatever the store holds at the point
the call bailed out. -/
def commitResult (r : SvcResult) : Store :=
  match r with
  | .ok s => s
  | .error (_, s) => s

/-- Wall-clock time advances between calls. -/
def tickClock (s : Store) : Store :=
  { s with clock := s.clock + 1 }

/-- Run one operation and let time pass. -/
def runOp (s : Store) (o : Op) : Store :=
  tickClock (commitResult (applyOp s o))

/-- Run a sequence of operations left to right. -/
def runOps (s : Store) (ops : List Op) : Store :=
  ops.foldl runOp s

/-- The store right after `CreateTablesIfNotExist` on a fresh database:
three empty tables, each `SERIAL` sequence at 1. -/
def emptyStore : Store :=
  ⟨[], [], [], 1, 1, 1, 0⟩

/-! ## Invariants -/

/-- Two borrow rows do not agree on the (user, book) pair while both are
active (null `return_date`). -/
def NoDupActive (r r' : BorrowRow) : Prop :=
  ¬(r.user_id = r'.user_id ∧ r.book_id = r'.book_id ∧
    r.return_date = none ∧ r'.return_date = none)

instance (r r' : BorrowRow) : Decidable (NoDupActive r r') := by
  unfold NoDupActive; infer_instance

/-- At most one active borrow (null `return_date`) per (user, book) pair:
no two distinct borrow rows agree on the pair while both are active. -/
def AtMostOneActive (s : Store) : Prop :=
  s.borrows.Pairwise NoDupActive

/-- Every borrow row created by the application has its `borrow_date` set
(the insert in `BorrowBook` lets the `CURRENT_TIMESTAMP` default fill
it). -/
def BorrowDatesSet (s : Store) : Prop :=
  ∀ r ∈ s.borrows, r.borrow_date ≠ none

/-- Every book row has a nonnegative quantity (the `CHECK (quantity >= 0)`
constraint). -/
def NonNegBooks (s : Store) : Prop :=
  ∀ r ∈ s.books, 0 ≤ r.quantity

instance (s : Store) : Decidable (AtMostOneActive s) := by
  unfold AtMostOneActive; infer_instance

instance (s : Store) : Decidable (BorrowDatesSet s) := by
  unfold BorrowDatesSet; infer_instance

instance (s : Store) : Decidable (NonNegBooks s) := by
  unfold NonNegBooks; infer_instance

/-! ## Helper lemmas -/

/-- With pairwise-distinct book ids, the `WHERE id = $1` lookup returns the
member row carrying that id. -/
theorem book_find_of_mem {l : List BookRow} {row : BookRow} {b : Nat}
    (hnd : (l.map BookRow.id).Nodup) (hmem : row ∈ l) (hid : row.id = b) :
    l.find? (fun r => r.id == b) = some row := by
  induction l with
  | nil => cases hmem
  | cons hd tl ih =>
    rw [List.map_cons, List.nodup_cons] at hnd
    rcases List.mem_cons.mp hmem with h | h
    · subst h
      simp [List.find?_cons, hid]
    · have hne : ¬hd.id = b := by
        intro he
        exact hnd.1 (by rw [he, ← hid]; exact List.mem_map_of_mem BookRow.id h)
      rw [List.find?_cons]
      have hb : (hd.id == b) = false := by
        simp [hne]
      rw [hb]
      exact ih hnd.2 h

/-- With pairwise-distinct book ids, two member rows with the same id are
the same row. -/
theorem book_eq_of_mem_of_id {l : List BookRow} {row r : BookRow}
    (hnd : (l.map BookRow.id).Nodup) (hmem : row ∈ l) (hr : r ∈ l)
    (h : r.id = row.id) : r = row :=
  List.inj_on_of_nodup_map hnd hr hmem h

/-- When no borrow row of the pair is active, the shared existence-check
query matches nothing. -/
theorem activeCheck_eq_nil {s : Store} {b u : Nat}
    (hno : ∀ r ∈ s.borrows, ¬(r.book_id = b ∧ r.user_id = u ∧ r.return_date = none)) :
    activeBorrowCheckRows s b u = [] := by
  unfold activeBorrowCheckRows
  rw [List.filter_eq_nil_iff]
  intro r hr hcon
  simp only [Bool.and_eq_true, beq_iff_eq] at hcon
  exact hno r hr ⟨hcon.1.1.1, hcon.1.1.2, hcon.2⟩

/-! ## Claim theorems -/

/-- C3: for every store state in which book `b` exists with quantity ≤ 0
(in particular quantity 0), `BorrowBook(b,u)` fails with the business-rule
error "Book is not available" for every user `u`, and the store is
unchanged — the error is raised before any writing statement, and the
store carried out of the call is exactly the input store. -/
theorem borrowBook_not_available_spec (s : Store) (b u : Nat) (row : BookRow)
    (hnd : (s.books.map BookRow.id).Nodup) (hrow : row ∈ s.books) (hid : row.id = b)
    (hq : row.quantity ≤ 0) :
    borrowBook s b u = .error (.business "Book is not available", s) := by
  have hfind := book_find_of_mem hnd hrow hid
  unfold borrowBook readBookQuantity
  rw [hfind]
  simp [hq]

/-- Store with one book of quantity 0 for the C3 witness. -/
def c3Store : Store := ⟨[], [⟨1, "LOTR", 0⟩], [], 1, 2, 1, 0⟩

/-- C3 witness: the hypotheses hold at `c3Store`, book 1, user 7, and the
call fails with "Book is not available" leaving the store as it was. -/
theorem borrowBook_not_available_witness :
    (c3Store.books.map BookRow.id).Nodup ∧
    (⟨1, "LOTR", 0⟩ : BookRow) ∈ c3Store.books ∧
    (⟨1, "LOTR", 0⟩ : BookRow).quantity ≤ 0 ∧
    borrowBook c3Store 1 7 = .error (.business "Book is not available", c3Store) :=
  ⟨by decide, by decide, by decide,
    borrowBook_not_available_spec c3Store 1 7 ⟨1, "LOTR", 0⟩ (by decide) (by decide) rfl
      (by decide)⟩

/-- Store with an active borrow of book 1 by user 1 (borrow timestamp set,
return timestamp NULL), book 1 present with quantity 5. -/
def c2Store : Store :=
  ⟨[⟨1, "Tine", "Kokalj"⟩], [⟨1, "LOTR", 5⟩], [⟨1, 1, 1, some 0, none⟩], 2, 2, 2, 1⟩

/-- C2: on a store that already holds an active borrow row for the pair,
`BorrowBook` does fail without inserting a second row and without touching
the store — but not with the business-rule error "Book is already
borrowed": the existence check runs `SELECT *` (five columns) through
`QueryRow(..).Scan(&bookBorrowed)` with a single destination, so pgx's
`Scan` fails on the column-count mismatch whenever a row matches, the
wrapped driver error is returned, and the `bookBorrowed` branch carrying
the intended message is unreachable. -/
theorem borrowBook_active_borrow_scan_bug :
    borrowBook c2Store 1 1 =
      .error (.db "number of field descriptions must equal number of destinations, got 5 and 1",
        c2Store) := rfl

/-- C5: for every store state with no active borrow row for the pair
(`b`,`u`), `ReturnBook(b,u)` fails with the business-rule error
"Book is not borrowed" and the store is unchanged. -/
theorem returnBook_not_borrowed_spec (s : Store) (b u : Nat)
    (hno : ∀ r ∈ s.borrows, ¬(r.book_id = b ∧ r.user_id = u ∧ r.return_date = none)) :
    returnBook s b u = .error (.business "Book is not borrowed", s) := by
  have hchk := activeCheck_eq_nil hno
  unfold returnBook
  rw [hchk]
  rfl

/-- C1: for every store state (with the book table's primary key intact)
in which book `b` exists with quantity q > 0, user `u` exists, and no
borrow row for (`b`,`u`) has a null return timestamp, `BorrowBook(b,u)`
returns no error, appends exactly one new borrow row for the pair — fresh
serial id, borrow timestamp defaulted to now, null return timestamp — and
decrements exactly book `b`'s quantity by 1; every other book row, all
borrow rows, and the users table are unchanged. -/
theorem borrowBook_success_spec (s : Store) (b u : Nat) (row : BookRow) (urow : UserRow)
    (hnd : (s.books.map BookRow.id).Nodup)
    (hrow : row ∈ s.books) (hid : row.id = b) (hpos : 0 < row.quantity)
    (huser : urow ∈ s.users) (huid : urow.id = u)
    (hact : ∀ r ∈ s.borrows, ¬(r.book_id = b ∧ r.user_id = u ∧ r.return_date = none)) :
    borrowBook s b u = .ok { s with
      books := s.books.map (fun r =>
        if r.id == b then { r with quantity := r.quantity - 1 } else r),
      borrows := s.borrows ++ [⟨s.nextBorrowId, u, b, some s.clock, none⟩],
      nextBorrowId := s.nextBorrowId + 1 } := by
  have hfind := book_find_of_mem hnd hrow hid
  have husers : s.users.any (fun r => r.id == u) = true := by
    rw [List.any_eq_true]
    exact ⟨urow, huser, by simp [huid]⟩
  have hbooks : s.books.any (fun r => r.id == b) = true := by
    rw [List.any_eq_true]
    exact ⟨row, hrow, by simp [hid]⟩
  have hchk := activeCheck_eq_nil hact
  have hq' : ¬ row.quantity ≤ 0 := not_le.mpr hpos
  have hdec : (s.books.any (fun r => r.id == b && decide (r.quantity - 1 < 0))) = false := by
    rw [Bool.eq_false_iff, Ne, List.any_eq_true]
    rintro ⟨r, hr, hcond⟩
    simp only [Bool.and_eq_true, beq_iff_eq, decide_eq_true_eq] at hcond
    have hre : r = row := book_eq_of_mem_of_id hnd hrow hr (by rw [hcond.1, hid])
    rw [hre] at hcond
    omega
  simp only [borrowBook, readBookQuantity, hfind, Option.map_some', hq', if_false,
    userExist, userExistsQ, husers, if_true, scanBorrowedFlag, hchk, List.head?_nil,
    execInsertBorrow, hbooks, Bool.not_true, Bool.false_eq_true, execDecrementBook, hdec]

/-- Store for the C1 witness: one user, one book of quantity 5, no borrow
rows. -/
def c1Store : Store := ⟨[⟨1, "Tine", "Kokalj"⟩], [⟨1, "LOTR", 5⟩], [], 2, 2, 1, 3⟩

/-- C1 witness: hypotheses hold at `c1Store`, book 1, user 1, and the call
succeeds, appending the one fresh active borrow row and decrementing the
quantity from 5 to 4. -/
theorem borrowBook_success_witness :
    (c1Store.books.map BookRow.id).Nodup ∧
    (⟨1, "LOTR", 5⟩ : BookRow) ∈ c1Store.books ∧ (0 : Int) < 5 ∧
    (⟨1, "Tine", "Kokalj"⟩ : UserRow) ∈ c1Store.users ∧
    (∀ r ∈ c1Store.borrows, ¬(r.book_id = 1 ∧ r.user_id = 1 ∧ r.return_date = none)) ∧
    borrowBook c1Store 1 1 = .ok { c1Store with
      books := c1Store.books.map (fun r =>
        if r.id == 1 then { r with quantity := r.quantity - 1 } else r),
      borrows := c1Store.borrows ++ [⟨c1Store.nextBorrowId, 1, 1, some c1Store.clock, none⟩],
      nextBorrowId := c1Store.nextBorrowId + 1 } :=
  ⟨by decide, by decide, by decide, by decide, by decide,
    borrowBook_success_spec c1Store 1 1 ⟨1, "LOTR", 5⟩ ⟨1, "Tine", "Kokalj"⟩
      (by decide) (by decide) rfl (by decide) (by decide) rfl (by decide)⟩

/-- Store whose only borrow row of the pair (1,1) is already returned. -/
def c5Store : Store :=
  ⟨[⟨1, "Tine", "Kokalj"⟩], [⟨1, "LOTR", 3⟩], [⟨1, 1, 1, some 0, some 1⟩], 2, 2, 2, 2⟩

/-- C5 witness: no active borrow of book 1 by user 1 in `c5Store`, and the
return call fails with "Book is not borrowed" leaving the store as it
was. -/
theorem returnBook_not_borrowed_witness :
    (∀ r ∈ c5Store.borrows, ¬(r.book_id = 1 ∧ r.user_id = 1 ∧ r.return_date = none)) ∧
    returnBook c5Store 1 1 = .error (.business "Book is not borrowed", c5Store) :=
  ⟨by decide, returnBook_not_borrowed_spec c5Store 1 1 (by decide)⟩

/-- C9: for every store state containing a book with id `i` and stored
title `t`, `UpdateBook(i, {title: t, quantity: q'})` (with `q'` a valid
quantity, per the store's CHECK constraint) succeeds and overwrites the
book's quantity with `q'` — the id+title match makes the code skip the
duplicate-title check, so the fact that title `t` is already present in
the table (on book `i` itself) does not fail the update. -/
theorem updateBook_same_title_spec (s : Store) (i : Nat) (t : String) (q' : Int)
    (row : BookRow) (hrow : row ∈ s.books) (hid : row.id = i) (ht : row.title = t)
    (hq : 0 ≤ q') :
    updateBook s i t q' = .ok { s with books := s.books.map (fun r =>
      if r.id == i then { r with title := t, quantity := q' } else r) } := by
  have hex : (s.books.any fun r => r.id == i) = true := by
    rw [List.any_eq_true]
    exact ⟨row, hrow, by simp [hid]⟩
  have hmatch : bookAndTitleMatchQ s i t = true := by
    unfold bookAndTitleMatchQ
    rw [List.any_eq_true]
    exact ⟨row, hrow, by simp [hid, ht]⟩
  have hq' : decide (q' < 0) = false := decide_eq_false (not_lt.mpr hq)
  simp only [updateBook, bookExists, hex, if_true, hmatch, execUpdateBook, hq',
    Bool.false_and, Bool.false_eq_true, if_false]

/-- Store for the C9 witness: one book (id 1, title "LOTR", quantity 5). -/
def c9Store : Store := ⟨[], [⟨1, "LOTR", 5⟩], [], 1, 2, 1, 0⟩

/-- C9 witness: updating book 1 of `c9Store` to its own stored title with
the new quantity 9 succeeds and stores quantity 9. -/
theorem updateBook_same_title_witness :
    (⟨1, "LOTR", 5⟩ : BookRow) ∈ c9Store.books ∧ (0 : Int) ≤ 9 ∧
    updateBook c9Store 1 "LOTR" 9 = .ok { c9Store with books := c9Store.books.map (fun r =>
      if r.id == 1 then { r with title := "LOTR", quantity := 9 } else r) } :=
  ⟨by decide, by decide,
    updateBook_same_title_spec c9Store 1 "LOTR" 9 ⟨1, "LOTR", 5⟩ (by decide) rfl rfl
      (by decide)⟩

/-- Store for C8: a single user (id 1) named Tine Kokalj. -/
def c8Store : Store := ⟨[⟨1, "Tine", "Kokalj"⟩], [], [], 2, 1, 1, 0⟩

/-- C8 counterexample: re-submitting user 1's own current first+last names
through `UpdateUser` fails — the duplicate-name check runs against the
whole table, the target row included — although the claim says such an
update succeeds. -/
theorem updateUser_own_names_fails :
    updateUser c8Store "Tine" "Kokalj" 1 =
      .error (.business "User with this name: Tine, and last name: Kokalj, already exists",
        c8Store) := rfl

/-- C8 (amended): `UpdateUser(user, id)` fails exactly when the id does
not exist or the new first+last name pair equals the pair of ANY existing
user — the target user itself included, so re-submitting the user's own
current names fails; when the id exists and the pair matches no user at
all, the call succeeds and overwrites both names (books and borrows
untouched). -/
theorem updateUser_success_iff (s : Store) (fn ln : String) (uid : Nat) :
    ((∃ s', updateUser s fn ln uid = .ok s') ↔
      ((∃ r ∈ s.users, r.id = uid) ∧ ∀ r ∈ s.users, ¬(r.first_name = fn ∧ r.last_name = ln)))
    ∧ ∀ s', updateUser s fn ln uid = .ok s' →
        s'.users = s.users.map (fun r =>
          if r.id == uid then { r with first_name := fn, last_name := ln } else r) ∧
        s'.books = s.books ∧ s'.borrows = s.borrows := by
  unfold updateUser userExist userExistsQ nameAndLastNameExist namePairExistsQ
  by_cases h1 : (s.users.any fun r => r.id == uid) = true
  · by_cases h2 : (s.users.any fun r => r.first_name == fn && r.last_name == ln) = true
    · simp only [h1, if_true, h2]
      constructor
      · constructor
        · rintro ⟨s', hs'⟩
          exact Except.noConfusion hs'
        · rintro ⟨-, hno⟩
          rw [List.any_eq_true] at h2
          obtain ⟨r, hr, hcond⟩ := h2
          simp only [Bool.and_eq_true, beq_iff_eq] at hcond
          exact absurd ⟨hcond.1, hcond.2⟩ (hno r hr)
      · intro s' hs'
        exact Except.noConfusion hs'
    · have h2' : (s.users.any fun r => r.first_name == fn && r.last_name == ln) = false :=
        Bool.eq_false_iff.mpr h2
      simp only [h1, if_true, h2', Bool.false_eq_true, if_false]
      constructor
      · constructor
        · intro _
          constructor
          · rw [List.any_eq_true] at h1
            obtain ⟨r, hr, hcond⟩ := h1
            exact ⟨r, hr, by simpa using hcond⟩
          · intro r hr hcon
            rw [List.any_eq_false] at h2'
            exact h2' r hr (by simp [hcon.1, hcon.2])
        · intro _
          exact ⟨_, rfl⟩
      · intro s' hs'
        injection hs' with h
        subst h
        exact ⟨rfl, rfl, rfl⟩
  · have h1' : (s.users.any fun r => r.id == uid) = false := Bool.eq_false_iff.mpr h1
    simp only [h1', Bool.false_eq_true, if_false]
    constructor
    · constructor
      · rintro ⟨s', hs'⟩
        exact Except.noConfusion hs'
      · rintro ⟨⟨r, hr, hrid⟩, -⟩
        rw [List.any_eq_false] at h1'
        exact (h1' r hr (by simp [hrid])).elim
    · intro s' hs'
      exact Except.noConfusion hs'

/-- Result store for the C8 witness. -/
def c8Updated : Store := ⟨[⟨1, "Ana", "Novak"⟩], [], [], 2, 1, 1, 0⟩

/-- C8 witness: updating user 1 to the fresh name pair Ana Novak succeeds
and overwrites both names, leaving books and borrows untouched. -/
theorem updateUser_success_iff_witness :
    c8Updated.users = c8Store.users.map (fun r =>
      if r.id == 1 then { r with first_name := "Ana", last_name := "Novak" } else r) ∧
    c8Updated.books = c8Store.books ∧ c8Updated.borrows = c8Store.borrows :=
  (updateUser_success_iff c8Store "Ana" "Novak" 1).2 c8Updated rfl

/-- Store for C4's counterexample: two active borrow rows for the pair
(book 1, user 1) — a state the `unique_borrow` constraint admits, since
SQL UNIQUE treats the two NULL `return_date`s as distinct. -/
def c4Store : Store :=
  ⟨[⟨1, "Tine", "Kokalj"⟩], [⟨1, "LOTR", 5⟩],
   [⟨1, 1, 1, some 0, none⟩, ⟨2, 1, 1, some 0, none⟩], 2, 2, 3, 1⟩

/-- C4 counterexample: on a store with an active borrow row for (1,1)
(two of them), book 1 present with quantity 5 and user 1 present,
`ReturnBook(1,1)` does NOT return no error: its single return-marking
UPDATE gives both active rows the same `(user_id, book_id, NOW())` triple
and is aborted by the `unique_borrow` constraint, so the call fails and
the store is left unchanged. -/
theorem returnBook_two_active_rows_fails :
    returnBook c4Store 1 1 =
      .error (.db "duplicate key value violates unique constraint unique_borrow", c4Store) := rfl

/-- C4 (amended): for every store state (book primary key intact, CHECK
constraint holding, all stored return timestamps in the past) with exactly
ONE active borrow row for the pair (`b`,`u`) — its borrow timestamp set,
as every application-created row has — and book `b` present,
`ReturnBook(b,u)` returns no error, that borrow row's return timestamp
becomes non-null (set to now), and book `b`'s quantity is incremented by
exactly 1. (With two or more active rows for the pair the call fails, as
the counterexample shows.) -/
theorem returnBook_single_active_spec (s : Store) (b u : Nat) (row : BookRow) (br : BorrowRow)
    (hnd : (s.books.map BookRow.id).Nodup)
    (hrow : row ∈ s.books) (hid : row.id = b) (hqnn : 0 ≤ row.quantity)
    (hact : s.borrows.filter (fun r =>
      r.book_id == b && r.user_id == u && r.return_date == none) = [br])
    (hbd : br.borrow_date ≠ none)
    (hclk : ∀ r ∈ s.borrows, r.return_date ≠ some s.clock) :
    returnBook s b u = .ok { s with
      books := s.books.map (fun r =>
        if r.id == b then { r with quantity := r.quantity + 1 } else r),
      borrows := markReturnedRows s b u } ∧
    { br with return_date := some s.clock } ∈ markReturnedRows s b u := by
  have hbr_mem_filter : br ∈ s.borrows.filter (fun r =>
      r.book_id == b && r.user_id == u && r.return_date == none) := by
    rw [hact]
    exact List.mem_singleton_self br
  have hbr_mem := List.mem_of_mem_filter hbr_mem_filter
  have hbr_cond := List.of_mem_filter hbr_mem_filter
  simp only [Bool.and_eq_true, beq_iff_eq] at hbr_cond
  obtain ⟨⟨hbb, hbu⟩, hbret⟩ := hbr_cond
  have hbd' : (br.borrow_date == none) = false := beq_eq_false_iff_ne.mpr hbd
  have hbr_chk : br ∈ activeBorrowCheckRows s b u := by
    unfold activeBorrowCheckRows
    rw [List.mem_filter]
    exact ⟨hbr_mem, by simp [hbb, hbu, hbret, hbd']⟩
  obtain ⟨hd, hh⟩ : ∃ hd, (activeBorrowCheckRows s b u).head? = some hd := by
    cases hx : (activeBorrowCheckRows s b u).head? with
    | none =>
      exact absurd (List.head?_eq_none_iff.mp hx)
        (fun hnil => by rw [hnil] at hbr_chk; cases hbr_chk)
    | some hd => exact ⟨hd, rfl⟩
  have hnoany : (s.borrows.any fun r =>
      r.book_id == b && r.user_id == u && r.return_date == some s.clock) = false := by
    rw [List.any_eq_false]
    intro r hr hcon
    simp only [Bool.and_eq_true, beq_iff_eq] at hcon
    exact hclk r hr hcon.2
  have hmark : execMarkReturned s b u = .ok { s with borrows := markReturnedRows s b u } := by
    simp only [execMarkReturned, hact, List.length_singleton, hnoany]
    norm_num
  have hinc : (s.books.any fun r => r.id == b && decide (r.quantity + 1 < 0)) = false := by
    rw [List.any_eq_false]
    intro r hr hcon
    simp only [Bool.and_eq_true, beq_iff_eq, decide_eq_true_eq] at hcon
    have hre : r = row := book_eq_of_mem_of_id hnd hrow hr (by rw [hcon.1, hid])
    rw [hre] at hcon
    omega
  constructor
  · simp only [returnBook, hh, hmark, execIncrementBook, hinc, Bool.false_eq_true, if_false]
    norm_num
  · have hfbr : ({ br with return_date := some s.clock } : BorrowRow) =
        (fun r => if r.book_id == b && r.user_id == u && r.return_date == none
                  then { r with return_date := some s.clock } else r) br := by
      simp [hbb, hbu, hbret]
    rw [markReturnedRows, hfbr]
    exact List.mem_map_of_mem _ hbr_mem

/-- Store for the C4 witness: exactly one active borrow row for (1,1). -/
def c4wStore : Store :=
  ⟨[⟨1, "Tine", "Kokalj"⟩], [⟨1, "LOTR", 5⟩], [⟨1, 1, 1, some 0, none⟩], 2, 2, 2, 1⟩

/-- C4 witness: at `c4wStore` the amended hypotheses hold and the return
succeeds, marking the row with the current time and incrementing the
quantity from 5 to 6. -/
theorem returnBook_single_active_witness :
    (c4wStore.borrows.filter (fun r =>
      r.book_id == 1 && r.user_id == 1 && r.return_date == none) =
        [⟨1, 1, 1, some 0, none⟩]) ∧
    (∀ r ∈ c4wStore.borrows, r.return_date ≠ some c4wStore.clock) ∧
    returnBook c4wStore 1 1 = .ok { c4wStore with
      books := c4wStore.books.map (fun r =>
        if r.id == 1 then { r with quantity := r.quantity + 1 } else r),
      borrows := markReturnedRows c4wStore 1 1 } ∧
    ({ id := 1, user_id := 1, book_id := 1, borrow_date := some 0,
       return_date := some c4wStore.clock } : BorrowRow) ∈ markReturnedRows c4wStore 1 1 :=
  ⟨by decide, by decide,
    returnBook_single_active_spec c4wStore 1 1 ⟨1, "LOTR", 5⟩ ⟨1, 1, 1, some 0, none⟩
      (by decide) (by decide) rfl (by decide) (by decide) (by decide) (by decide)⟩

/-- C10: whenever `ReturnBook(b,u)` succeeds, the return-marking update —
filtered only by book id, user id and null return timestamp, with no
single-row limit — has stamped the current time onto EVERY borrow row of
the pair that had a null return timestamp (all of them, should more than
one fall under the filter), no borrow row was added or removed, book `b`'s
row was incremented by exactly 1, every other book row is untouched, and
the users table is unchanged. -/
theorem returnBook_marks_all_active_rows (s : Store) (b u : Nat) (s' : Store)
    (h : returnBook s b u = .ok s') :
    (∀ r ∈ s.borrows, r.book_id = b → r.user_id = u → r.return_date = none →
        { r with return_date := some s.clock } ∈ s'.borrows)
    ∧ s'.borrows.length = s.borrows.length
    ∧ (∀ rb ∈ s.books, rb.id = b → { rb with quantity := rb.quantity + 1 } ∈ s'.books)
    ∧ (∀ rb ∈ s.books, rb.id ≠ b → rb ∈ s'.books)
    ∧ s'.users = s.users := by
  unfold returnBook at h
  cases hh : (activeBorrowCheckRows s b u).head? with
  | none =>
    rw [hh] at h
    exact Except.noConfusion h
  | some hd =>
    rw [hh] at h
    norm_num at h
    cases hm : execMarkReturned s b u with
    | error e =>
      rw [hm] at h
      exact Except.noConfusion h
    | ok s1 =>
      rw [hm] at h
      dsimp only at h
      have hs1 : s1 = { s with borrows := markReturnedRows s b u } := by
        simp only [execMarkReturned] at hm
        split at hm
        · exact Except.noConfusion hm
        · injection hm with hm'
          exact hm'.symm
      cases hi : execIncrementBook s1 b with
      | error e =>
        rw [hi] at h
        exact Except.noConfusion h
      | ok s2 =>
        rw [hi] at h
        injection h with h'
        subst h'
        have hs2 : s2 = { s1 with books := s1.books.map (fun r =>
            if r.id == b then { r with quantity := r.quantity + 1 } else r) } := by
          simp only [execIncrementBook] at hi
          split at hi
          · exact Except.noConfusion hi
          · injection hi with hi'
            exact hi'.symm
        subst hs2
        subst hs1
        refine ⟨?_, ?_, ?_, ?_, rfl⟩
        · intro r hr hrb hru hrret
          have hfr : ({ r with return_date := some s.clock } : BorrowRow) =
              (fun r => if r.book_id == b && r.user_id == u && r.return_date == none
                        then { r with return_date := some s.clock } else r) r := by
            simp [hrb, hru, hrret]
          rw [hfr]
          exact List.mem_map_of_mem _ hr
        · exact List.length_map _ _
        · intro rb hrb hrbid
          have hfrb : ({ rb with quantity := rb.quantity + 1 } : BookRow) =
              (fun r => if r.id == b then { r with quantity := r.quantity + 1 } else r) rb := by
            simp [hrbid]
          rw [hfrb]
          exact List.mem_map_of_mem _ hrb
        · intro rb hrb hrbid
          have hfrb : rb =
              (fun r => if r.id == b then { r with quantity := r.quantity + 1 } else r) rb := by
            simp [hrbid]
          rw [hfrb]
          exact List.mem_map_of_mem _ hrb

/-- Store for the C10 witness: one active borrow row of book 1 by user 1. -/
def c10Store : Store :=
  ⟨[⟨1, "Tine", "Kokalj"⟩], [⟨1, "LOTR", 5⟩], [⟨1, 1, 1, some 0, none⟩], 2, 2, 2, 1⟩

/-- The store after `ReturnBook(1,1)` on `c10Store`. -/
def c10Result : Store :=
  ⟨[⟨1, "Tine", "Kokalj"⟩], [⟨1, "LOTR", 6⟩], [⟨1, 1, 1, some 0, some 1⟩], 2, 2, 2, 1⟩

/-- C10 witness: the return on `c10Store` succeeds with result
`c10Result`, and the theorem's conclusions hold there. -/
theorem returnBook_marks_all_active_rows_witness :
    returnBook c10Store 1 1 = .ok c10Result ∧
    ((∀ r ∈ c10Store.borrows, r.book_id = 1 → r.user_id = 1 → r.return_date = none →
        { r with return_date := some c10Store.clock } ∈ c10Result.borrows)
    ∧ c10Result.borrows.length = c10Store.borrows.length
    ∧ (∀ rb ∈ c10Store.books, rb.id = 1 → { rb with quantity := rb.quantity + 1 } ∈ c10Result.books)
    ∧ (∀ rb ∈ c10Store.books, rb.id ≠ 1 → rb ∈ c10Result.books)
    ∧ c10Result.users = c10Store.users) :=
  ⟨rfl, returnBook_marks_all_active_rows c10Store 1 1 c10Result rfl⟩

/-! ## Effect of each operation on the tables

Characterization lemmas used by the reachability invariants: which lists a
single executed operation can leave in the store, on success as well as on
the partial-write error paths (nothing is wrapped in a transaction). -/

theorem createUser_run_tables (s : Store) (fn ln : String) :
    (runOp s (Op.createUser fn ln)).books = s.books ∧
    (runOp s (Op.createUser fn ln)).borrows = s.borrows := by
  cases hx : nameAndLastNameExist s fn ln <;>
    simp [runOp, applyOp, createUser, hx, tickClock, commitResult, execInsertUser]

theorem updateUser_run_tables (s : Store) (fn ln : String) (uid : Nat) :
    (runOp s (Op.updateUser fn ln uid)).books = s.books ∧
    (runOp s (Op.updateUser fn ln uid)).borrows = s.borrows := by
  cases hx : userExist s uid
  · cases hy : nameAndLastNameExist s fn ln <;>
      simp [runOp, applyOp, updateUser, hx, hy, tickClock, commitResult]
  · simp [runOp, applyOp, updateUser, hx, tickClock, commitResult]

theorem deleteUser_run_tables (s : Store) (uid : Nat) :
    (runOp s (Op.deleteUser uid)).books = s.books ∧
    (runOp s (Op.deleteUser uid)).borrows = s.borrows := by
  cases hx : userExist s uid
  · by_cases hy : (s.users.any (fun r => r.id == uid) &&
        s.borrows.any (fun r => r.user_id == uid)) = true <;>
      simp [runOp, applyOp, deleteUser, execDeleteUser, hx, hy, tickClock, commitResult]
  · simp [runOp, applyOp, deleteUser, hx, tickClock, commitResult]

theorem readOnly_run_tables (s : Store) :
    (runOp s Op.readOnly).books = s.books ∧
    (runOp s Op.readOnly).borrows = s.borrows :=
  ⟨rfl, rfl⟩

theorem createBook_run_tables (s : Store) (t : String) (q : Int) :
    (runOp s (Op.createBook t q)).borrows = s.borrows ∧
    ((runOp s (Op.createBook t q)).books = s.books ∨
      ((runOp s (Op.createBook t q)).books = s.books ++ [⟨s.nextBookId, t, q⟩] ∧ 0 ≤ q)) := by
  cases hx : titleExists s t
  · by_cases hq : q < 0
    · simp [runOp, applyOp, createBook, execInsertBook, hx, hq, tickClock, commitResult]
    · refine ⟨?_, Or.inr ⟨?_, by omega⟩⟩ <;>
        simp [runOp, applyOp, createBook, execInsertBook, hx, hq, tickClock, commitResult]
  · simp [runOp, applyOp, createBook, hx, tickClock, commitResult]

theorem updateBook_run_tables (s : Store) (i : Nat) (t : String) (q : Int) :
    (runOp s (Op.updateBook i t q)).borrows = s.borrows ∧
    ((runOp s (Op.updateBook i t q)).books = s.books ∨
      ((runOp s (Op.updateBook i t q)).books = s.books.map (fun r =>
          if r.id == i then { r with title := t, quantity := q } else r) ∧
        (0 ≤ q ∨ (s.books.any fun r => r.id == i) = false))) := by
  have hguard : ¬(decide (q < 0) && s.books.any (fun r => r.id == i)) = true →
      (0 ≤ q ∨ (s.books.any fun r => r.id == i) = false) := by
    intro hg
    rw [Bool.and_eq_true, not_and_or] at hg
    rcases hg with hg | hg
    · left
      rw [decide_eq_true_eq] at hg
      omega
    · right
      exact Bool.eq_false_iff.mpr hg
  cases hx : bookExists s i
  · by_cases hm : bookAndTitleMatchQ s i t = true
    · by_cases hg : (decide (q < 0) && s.books.any (fun r => r.id == i)) = true
      · simp [runOp, applyOp, updateBook, execUpdateBook, hx, hm, hg, tickClock, commitResult]
      · refine ⟨?_, Or.inr ⟨?_, hguard hg⟩⟩ <;>
          simp [runOp, applyOp, updateBook, execUpdateBook, hx, hm, hg, tickClock, commitResult]
    · cases hy : titleExists s t
      · by_cases hg : (decide (q < 0) && s.books.any (fun r => r.id == i)) = true
        · simp [runOp, applyOp, updateBook, execUpdateBook, hx, hm, hy, hg, tickClock,
            commitResult]
        · refine ⟨?_, Or.inr ⟨?_, hguard hg⟩⟩ <;>
            simp [runOp, applyOp, updateBook, execUpdateBook, hx, hm, hy, hg, tickClock,
              commitResult]
      · simp [runOp, applyOp, updateBook, hx, hm, hy, tickClock, commitResult]
  · simp [runOp, applyOp, updateBook, hx, tickClock, commitResult]

theorem deleteBook_run_tables (s : Store) (i : Nat) :
    (runOp s (Op.deleteBook i)).borrows = s.borrows ∧
    ((runOp s (Op.deleteBook i)).books = s.books ∨
      (runOp s (Op.deleteBook i)).books = s.books.filter (fun r => !(r.id == i))) := by
  by_cases hx : (s.books.any (fun r => r.id == i) &&
      s.borrows.any (fun r => r.book_id == i)) = true
  · simp [runOp, applyOp, deleteBook, execDeleteBook, hx, tickClock, commitResult]
  · refine ⟨?_, Or.inr ?_⟩ <;>
      simp [runOp, applyOp, deleteBook, execDeleteBook, hx, tickClock, commitResult]

theorem borrowBook_run_tables (s : Store) (b u : Nat) :
    ((runOp s (Op.borrowBook b u)).borrows = s.borrows ∨
      ((runOp s (Op.borrowBook b u)).borrows =
          s.borrows ++ [⟨s.nextBorrowId, u, b, some s.clock, none⟩] ∧
        activeBorrowCheckRows s b u = [])) ∧
    ((runOp s (Op.borrowBook b u)).books = s.books ∨
      ((runOp s (Op.borrowBook b u)).books = s.books.map (fun r =>
          if r.id == b then { r with quantity := r.quantity - 1 } else r) ∧
        ¬∃ x ∈ s.books, x.id = b ∧ x.quantity < 1)) := by
  cases hq : readBookQuantity s b with
  | none => simp [runOp, applyOp, borrowBook, hq, tickClock, commitResult]
  | some q =>
    by_cases hq0 : q ≤ 0
    · simp [runOp, applyOp, borrowBook, hq, hq0, tickClock, commitResult]
    · cases hu : userExist s u with
      | some e => simp [runOp, applyOp, borrowBook, hq, hq0, hu, tickClock, commitResult]
      | none =>
        cases hs : scanBorrowedFlag s b u with
        | error e =>
          simp [runOp, applyOp, borrowBook, hq, hq0, hu, hs, tickClock, commitResult]
        | ok bb =>
          have hnil : activeBorrowCheckRows s b u = [] := by
            unfold scanBorrowedFlag at hs
            cases hhd : (activeBorrowCheckRows s b u).head? with
            | some _ =>
              rw [hhd] at hs
              exact Except.noConfusion hs
            | none => exact List.head?_eq_none_iff.mp hhd
          have hbb : bb = false := by
            rw [scanBorrowedFlag, hnil] at hs
            injection hs with h
            exact h.symm
          subst hbb
          by_cases hfu : (!(s.users.any fun r => r.id == u)) = true
          · simp [runOp, applyOp, borrowBook, hq, hq0, hu, hs, execInsertBorrow, hfu,
              tickClock, commitResult]
          · by_cases hfb : (!(s.books.any fun r => r.id == b)) = true
            · simp [runOp, applyOp, borrowBook, hq, hq0, hu, hs, execInsertBorrow, hfu, hfb,
                tickClock, commitResult]
            · by_cases hdec : ∃ x ∈ s.books, x.id = b ∧ x.quantity < 1
              · refine ⟨Or.inr ⟨?_, hnil⟩, Or.inl ?_⟩ <;>
                  simp [runOp, applyOp, borrowBook, hq, hq0, hu, hs, execInsertBorrow, hfu, hfb,
                    execDecrementBook, hdec, tickClock, commitResult]
              · refine ⟨Or.inr ⟨?_, hnil⟩, Or.inr ⟨?_, hdec⟩⟩ <;>
                  simp [runOp, applyOp, borrowBook, hq, hq0, hu, hs, execInsertBorrow, hfu, hfb,
                    execDecrementBook, hdec, tickClock, commitResult]

theorem returnBook_run_tables (s : Store) (b u : Nat) :
    ((runOp s (Op.returnBook b u)).borrows = s.borrows ∨
      (runOp s (Op.returnBook b u)).borrows = markReturnedRows s b u) ∧
    ((runOp s (Op.returnBook b u)).books = s.books ∨
      ((runOp s (Op.returnBook b u)).books = s.books.map (fun r =>
          if r.id == b then { r with quantity := r.quantity + 1 } else r) ∧
        (s.books.any fun r => r.id == b && decide (r.quantity + 1 < 0)) = false)) := by
  cases hh : (activeBorrowCheckRows s b u).head? with
  | none => simp [runOp, applyOp, returnBook, hh, tickClock, commitResult]
  | some hd =>
    by_cases hm : (2 ≤ (s.borrows.filter (fun r =>
          r.book_id == b && r.user_id == u && r.return_date == none)).length ∨
        (1 ≤ (s.borrows.filter (fun r =>
          r.book_id == b && r.user_id == u && r.return_date == none)).length ∧
          ∃ x ∈ s.borrows, (x.book_id = b ∧ x.user_id = u) ∧ x.return_date = some s.clock))
    · simp [runOp, applyOp, returnBook, hh, execMarkReturned, hm, tickClock, commitResult]
    · by_cases hdec : (s.books.any fun r => r.id == b && decide (r.quantity + 1 < 0)) = true
      · refine ⟨Or.inr ?_, Or.inl ?_⟩ <;>
          simp [runOp, applyOp, returnBook, hh, execMarkReturned, hm, execIncrementBook, hdec,
            tickClock, commitResult]
      · refine ⟨Or.inr ?_, Or.inr ⟨?_, Bool.eq_false_iff.mpr hdec⟩⟩ <;>
          simp [runOp, applyOp, returnBook, hh, execMarkReturned, hm, execIncrementBook, hdec,
            tickClock, commitResult]

/-! ## Preservation of the invariants -/

theorem noDupActive_append {l : List BorrowRow} (nr : BorrowRow)
    (h : l.Pairwise NoDupActive)
    (hno : ∀ r ∈ l, ¬(r.user_id = nr.user_id ∧ r.book_id = nr.book_id ∧
      r.return_date = none ∧ nr.return_date = none)) :
    (l ++ [nr]).Pairwise NoDupActive := by
  rw [List.pairwise_append]
  refine ⟨h, List.pairwise_singleton _ _, ?_⟩
  intro a ha nb hnb
  rw [List.mem_singleton] at hnb
  subst hnb
  exact hno a ha

theorem noDupActive_map_mark (l : List BorrowRow) (b u now : Nat)
    (h : l.Pairwise NoDupActive) :
    (l.map (fun r => if r.book_id == b && r.user_id == u && r.return_date == none
        then { r with return_date := some now } else r)).Pairwise NoDupActive := by
  refine List.Pairwise.map _ (fun r r' hp => ?_) h
  intro hcon
  by_cases h1 : (r.book_id == b && r.user_id == u && r.return_date == none) = true
  · rw [if_pos h1] at hcon
    rcases hcon with ⟨-, -, h3, -⟩
    exact Option.noConfusion h3
  · rw [if_neg h1] at hcon
    by_cases h2 : (r'.book_id == b && r'.user_id == u && r'.return_date == none) = true
    · rw [if_pos h2] at hcon
      rcases hcon with ⟨-, -, -, h4⟩
      exact Option.noConfusion h4
    · rw [if_neg h2] at hcon
      exact hp hcon

theorem borrowDatesSet_append {l : List BorrowRow} {nr : BorrowRow}
    (h : ∀ r ∈ l, r.borrow_date ≠ none) (hnr : nr.borrow_date ≠ none) :
    ∀ r ∈ l ++ [nr], r.borrow_date ≠ none := by
  intro r hr
  rcases List.mem_append.mp hr with h' | h'
  · exact h r h'
  · rw [List.mem_singleton] at h'
    subst h'
    exact hnr

theorem borrowDatesSet_mark {l : List BorrowRow} {b u now : Nat}
    (h : ∀ r ∈ l, r.borrow_date ≠ none) :
    ∀ r ∈ l.map (fun r => if r.book_id == b && r.user_id == u && r.return_date == none
        then { r with return_date := some now } else r), r.borrow_date ≠ none := by
  intro r hr
  rw [List.mem_map] at hr
  obtain ⟨a, ha, rfl⟩ := hr
  by_cases hc : (a.book_id == b && a.user_id == u && a.return_date == none) = true
  · rw [if_pos hc]
    exact h a ha
  · rw [if_neg hc]
    exact h a ha

/-- When the borrowed-check query matched nothing and every stored borrow
row has its borrow timestamp set, the pair really has no active borrow
row. -/
theorem no_active_of_check_nil {s : Store} {b u : Nat}
    (hnil : activeBorrowCheckRows s b u = []) (hbd : BorrowDatesSet s) :
    ∀ r ∈ s.borrows, ¬(r.book_id = b ∧ r.user_id = u ∧ r.return_date = none) := by
  rintro r hr ⟨e1, e2, e3⟩
  have hbd' : (r.borrow_date == none) = false := beq_eq_false_iff_ne.mpr (hbd r hr)
  have hmem : r ∈ activeBorrowCheckRows s b u := by
    unfold activeBorrowCheckRows
    rw [List.mem_filter]
    exact ⟨hr, by simp [e1, e2, e3, hbd']⟩
  rw [hnil] at hmem
  cases hmem

theorem inv6_runOp (s : Store) (o : Op)
    (h1 : AtMostOneActive s) (h2 : BorrowDatesSet s) :
    AtMostOneActive (runOp s o) ∧ BorrowDatesSet (runOp s o) := by
  have keep : ∀ {s' : Store}, s'.borrows = s.borrows →
      AtMostOneActive s' ∧ BorrowDatesSet s' := by
    intro s' he
    constructor
    · unfold AtMostOneActive at *
      rw [he]
      exact h1
    · unfold BorrowDatesSet at *
      rw [he]
      exact h2
  cases o with
  | createUser fn ln => exact keep (createUser_run_tables s fn ln).2
  | updateUser fn ln uid => exact keep (updateUser_run_tables s fn ln uid).2
  | deleteUser uid => exact keep (deleteUser_run_tables s uid).2
  | createBook t q => exact keep (createBook_run_tables s t q).1
  | updateBook i t q => exact keep (updateBook_run_tables s i t q).1
  | deleteBook i => exact keep (deleteBook_run_tables s i).1
  | readOnly => exact keep rfl
  | borrowBook b u =>
    rcases (borrowBook_run_tables s b u).1 with he | ⟨he, hnil⟩
    · exact keep he
    · constructor
      · unfold AtMostOneActive
        rw [he]
        refine noDupActive_append _ h1 ?_
        intro r hr hcon
        exact no_active_of_check_nil hnil h2 r hr ⟨hcon.2.1, hcon.1, hcon.2.2.1⟩
      · unfold BorrowDatesSet
        rw [he]
        exact borrowDatesSet_append h2 (fun hcon => Option.noConfusion hcon)
  | returnBook b u =>
    rcases (returnBook_run_tables s b u).1 with he | he
    · exact keep he
    · constructor
      · unfold AtMostOneActive
        rw [he, markReturnedRows]
        exact noDupActive_map_mark _ b u s.clock h1
      · unfold BorrowDatesSet
        rw [he, markReturnedRows]
        exact borrowDatesSet_mark h2

theorem inv6_runOps (s : Store) (ops : List Op)
    (h1 : AtMostOneActive s) (h2 : BorrowDatesSet s) :
    AtMostOneActive (runOps s ops) ∧ BorrowDatesSet (runOps s ops) := by
  induction ops generalizing s with
  | nil => exact ⟨h1, h2⟩
  | cons o tl ih =>
    obtain ⟨g1, g2⟩ := inv6_runOp s o h1 h2
    exact ih (runOp s o) g1 g2

/-- C6: in every state reachable from the freshly created empty store by
any sequence of sequentially executed service operations (user, book, and
borrow operations alike), each (user, book) pair has at most one borrow
row with a null return timestamp — the application-level existence check
in `BorrowBook` is the only thing that enforces it, and it suffices under
sequential execution. -/
theorem atMostOneActive_invariant (ops : List Op) :
    AtMostOneActive (runOps emptyStore ops) :=
  (inv6_runOps emptyStore ops List.Pairwise.nil
    (fun r hr => absurd hr (List.not_mem_nil r))).1

theorem nonNegBooks_runOp (o : Op) (s : Store) (h : NonNegBooks s) :
    NonNegBooks (runOp s o) := by
  have keep : ∀ {s' : Store}, s'.books = s.books → NonNegBooks s' := by
    intro s' he
    unfold NonNegBooks at *
    rw [he]
    exact h
  cases o with
  | createUser fn ln => exact keep (createUser_run_tables s fn ln).1
  | updateUser fn ln uid => exact keep (updateUser_run_tables s fn ln uid).1
  | deleteUser uid => exact keep (deleteUser_run_tables s uid).1
  | readOnly => exact keep rfl
  | createBook t q =>
    rcases (createBook_run_tables s t q).2 with he | ⟨he, hq⟩
    · exact keep he
    · unfold NonNegBooks
      rw [he]
      intro r hr
      rcases List.mem_append.mp hr with h' | h'
      · exact h r h'
      · rw [List.mem_singleton] at h'
        subst h'
        exact hq
  | updateBook i t q =>
    rcases (updateBook_run_tables s i t q).2 with he | ⟨he, hg⟩
    · exact keep he
    · unfold NonNegBooks
      rw [he]
      intro r hr
      rw [List.mem_map] at hr
      obtain ⟨a, ha, rfl⟩ := hr
      by_cases hc : (a.id == i) = true
      · rw [if_pos hc]
        rcases hg with hg | hg
        · exact hg
        · rw [List.any_eq_false] at hg
          exact absurd hc (by simpa using hg a ha)
      · rw [if_neg hc]
        exact h a ha
  | deleteBook i =>
    rcases (deleteBook_run_tables s i).2 with he | he
    · exact keep he
    · unfold NonNegBooks
      rw [he]
      intro r hr
      exact h r (List.mem_of_mem_filter hr)
  | borrowBook b u =>
    rcases (borrowBook_run_tables s b u).2 with he | ⟨he, hg⟩
    · exact keep he
    · unfold NonNegBooks
      rw [he]
      intro r hr
      rw [List.mem_map] at hr
      obtain ⟨a, ha, rfl⟩ := hr
      by_cases hc : (a.id == b) = true
      · rw [if_pos hc]
        have hid : a.id = b := by simpa using hc
        have hnl : ¬ a.quantity < 1 := fun hlt => hg ⟨a, ha, hid, hlt⟩
        show 0 ≤ a.quantity - 1
        omega
      · rw [if_neg hc]
        exact h a ha
  | returnBook b u =>
    rcases (returnBook_run_tables s b u).2 with he | ⟨he, hg⟩
    · exact keep he
    · unfold NonNegBooks
      rw [he]
      intro r hr
      rw [List.mem_map] at hr
      obtain ⟨a, ha, rfl⟩ := hr
      by_cases hc : (a.id == b) = true
      · rw [if_pos hc]
        have ha' := h a ha
        show 0 ≤ a.quantity + 1
        omega
      · rw [if_neg hc]
        exact h a ha

theorem nonNegBooks_runOps (s : Store) (ops : List Op) (h : NonNegBooks s) :
    NonNegBooks (runOps s ops) := by
  induction ops generalizing s with
  | nil => exact h
  | cons o tl ih => exact ih (runOp s o) (nonNegBooks_runOp o s h)

/-- C7: every book row's quantity is ≥ 0 in every state reachable from
the freshly created empty store by any sequence of sequentially executed
service operations, and every single operation (CreateBook, UpdateBook,
BorrowBook, ReturnBook, the user operations and the reads) preserves the
predicate on any store satisfying it — the store-level
`CHECK (quantity >= 0)` constraint guards every write to `books`, and the
borrow workflow additionally refuses to borrow at quantity 0. -/
theorem nonNegBooks_invariant :
    (∀ ops : List Op, NonNegBooks (runOps emptyStore ops)) ∧
    (∀ (o : Op) (s : Store), NonNegBooks s → NonNegBooks (runOp s o)) :=
  ⟨fun ops => nonNegBooks_runOps emptyStore ops
      (fun r hr => absurd hr (List.not_mem_nil r)),
   fun o s h => nonNegBooks_runOp o s h⟩

/-- Store for the C7 witness. -/
def c7Store : Store := ⟨[], [⟨1, "LOTR", 2⟩], [], 1, 2, 1, 0⟩

/-- C7 witness: `c7Store` satisfies the predicate, and it is preserved
across a concrete `CreateBook` call. -/
theorem nonNegBooks_invariant_witness :
    NonNegBooks c7Store ∧ NonNegBooks (runOp c7Store (Op.createBook "Dune" 3)) :=
  ⟨by decide, nonNegBooks_invariant.2 (Op.createBook "Dune" 3) c7Store (by decide)⟩

end BorrowBook
